import Mathlib

/-!
Verification development for the checkpoint retention engine
(`pytorch_lightning/callbacks/model_checkpoint.py`).

The Python class `ModelCheckpoint` is embedded shallowly:
* metric values are rationals (`MetricVal.num`) or integers (`MetricVal.int`);
  monitored scores are compared as rationals,
* Python dicts are insertion-ordered association lists (`Metrics`,
  `best_k_models`) with `dictGet` / `dictInsert` / `dictPop` mirroring
  `d[k]`, `d[k] = v`, `d.pop(k)`,
* side effects (persist, delete, warnings, log lines) are recorded in an
  effect trace; `_del_model`'s exists-then-rm body is modelled as one
  idempotent delete request,
* Python exceptions become an `Option PyError` component of each result;
  a raised error carries the state as mutated up to the raise point,
* the storage backend's `exists` is a boolean function supplied per cycle,
  and the unbounded collision-probing `while` loop takes an explicit fuel.
-/

/-- A scalar metric value as it appears in a metrics dict: a Python int or
a (real-valued) float/tensor scalar, modelled as a rational. -/
inductive MetricVal where
  | int (i : Int)
  | num (q : ℚ)
deriving DecidableEq, Repr

/-- A metrics snapshot: a Python dict from names to scalars, as an
insertion-ordered association list. -/
abbrev Metrics := List (String × MetricVal)

/-- The numeric value of a metric, used for score comparison
(torch.lt / torch.gt on scalars). -/
def toScore (v : MetricVal) : ℚ :=
  match v with
  | .int i => (i : ℚ)
  | .num q => q

/-- Extended score: `kth_value` is initialised to plus/minus infinity
(`torch.tensor(np.Inf)`) before any checkpoint is recorded. -/
inductive EScore where
  | negInf
  | val (q : ℚ)
  | posInf
deriving DecidableEq, Repr

/-- Observable side effects of a cycle, in order of occurrence. -/
inductive Effect where
  | save (path : String) (weightsOnly : Bool)
  | del (path : String)
  | warn (msg : String)
  | info (msg : String)
deriving DecidableEq, Repr

/-- Python exceptions raised by the embedded code. -/
inductive PyError where
  | misconfiguration (msg : String)
  | valueError (msg : String)
  | keyError (key : String)
  | assertionError (msg : String)
deriving DecidableEq, Repr

/-! ### Python dict operations on association lists -/

/-- `d.get(k)` / `d[k]`: value of the first entry with the given key. -/
def dictGet {α : Type} (d : List (String × α)) (k : String) : Option α :=
  match d with
  | [] => none
  | p :: rest => if p.1 = k then some p.2 else dictGet rest k

/-- `k in d`. -/
def containsKey {α : Type} (d : List (String × α)) (k : String) : Bool :=
  match d with
  | [] => false
  | p :: rest => p.1 = k || containsKey rest k

/-- `d[k] = v`: update in place if the key is present, else append. -/
def dictInsert {α : Type} (d : List (String × α)) (k : String) (v : α) :
    List (String × α) :=
  if containsKey d k then d.map (fun p => if p.1 = k then (k, v) else p)
  else d ++ [(k, v)]

/-- `d.pop(k)` (the removal part; the caller handles the KeyError case). -/
def dictPop {α : Type} (d : List (String × α)) (k : String) :
    List (String × α) :=
  match d with
  | [] => []
  | p :: rest => if p.1 = k then dictPop rest k else p :: dictPop rest k

/-- `d.update(other)`: insert the other dict's pairs in order. -/
def dictUpdate {α : Type} (d other : List (String × α)) :
    List (String × α) :=
  other.foldl (fun acc p => dictInsert acc p.1 p.2) d

/-- Python `max(d, key=d.get)`: the first entry with maximal value
(later entries replace only on strictly greater). -/
def pyArgmax (d : List (String × ℚ)) : Option (String × ℚ) :=
  d.foldl
    (fun acc p =>
      match acc with
      | none => some p
      | some b => if p.2 > b.2 then some p else some b)
    none

/-- Python `min(d, key=d.get)`: the first entry with minimal value. -/
def pyArgmin (d : List (String × ℚ)) : Option (String × ℚ) :=
  d.foldl
    (fun acc p =>
      match acc with
      | none => some p
      | some b => if p.2 < b.2 then some p else some b)
    none

/-! ### String helpers -/

/-- Does the second list start with the first? -/
def listStartsWith : List Char → List Char → Bool
  | [], _ => true
  | _ :: _, [] => false
  | p :: ps, c :: cs => p = c && listStartsWith ps cs

/-- Substring containment on character lists. -/
def hasSubList (needle : List Char) : List Char → Bool
  | [] => needle.isEmpty
  | c :: cs => listStartsWith needle (c :: cs) || hasSubList needle cs

/-- Python `sub in hay` for strings. -/
def strContainsSub (hay sub : String) : Bool :=
  hasSubList sub.toList hay.toList

/-- Python `s.startswith(p)`. -/
def strStartsWith (s p : String) : Bool :=
  listStartsWith p.toList s.toList

/-- `os.path.join` for two components (POSIX flavour). -/
def osPathJoin (a b : String) : String :=
  if b.toList.head? = some '/' then b
  else if a = "" then b
  else if a.toList.getLast? = some '/' then a ++ b
  else a ++ "/" ++ b

/-- `sep.join(parts)`. -/
def strJoin (sep : String) : List String → String
  | [] => ""
  | [x] => x
  | x :: y :: xs => x ++ sep ++ strJoin sep (y :: xs)

/-- `CHECKPOINT_JOIN_CHAR.join([txt for txt in (prefix, filename) if txt])`:
join the non-empty components with "-". -/
def joinTxts (pfx body : String) : String :=
  strJoin "-" (([pfx, body]).filter (fun t => t != ""))

/-- `os.path.split`: split off the component after the last slash; trailing
slashes are stripped from the head unless it is all slashes. -/
def splitPath (p : String) : String × String :=
  let cs := p.toList
  let rev := cs.reverse
  let tl := (rev.takeWhile (fun c => c != '/')).reverse
  let head0 := (rev.dropWhile (fun c => c != '/')).reverse
  let headStripped := (head0.reverse.dropWhile (fun c => c == '/')).reverse
  let hd := if head0 ≠ [] ∧ headStripped = [] then head0 else headStripped
  (String.mk hd, String.mk tl)

/-! ### The filename formatter (`_format_checkpoint_name` and friends) -/

/-- Scanner for `re.findall(r"(\x7b.*?)[:\x7d]", filename)`: each match
starts at a literal open brace and its captured group runs up to (not
including) the first `:` or close brace after it; scanning resumes after
that delimiter.  The accumulator holds the characters captured so far (in
reverse) once an open brace has been seen. -/
def pyFindGroupsAux : List Char → Option (List Char) → List String
  | [], _ => []
  | c :: rest, none =>
    if c = '{' then pyFindGroupsAux rest (some [])
    else pyFindGroupsAux rest none
  | c :: rest, some acc =>
    if c = ':' ∨ c = '}' then
      String.mk ('{' :: acc.reverse) :: pyFindGroupsAux rest none
    else pyFindGroupsAux rest (some (c :: acc))

/-- `re.findall(r"(\x7b.*?)[:\x7d]", s)`. -/
def pyFindGroups (s : String) : List String :=
  pyFindGroupsAux s.toList none

/-- Python `s.replace(pat, rep)` on character lists: replace all
non-overlapping occurrences left to right.  The fuel argument (instantiated
with the list length, which bounds the number of steps) keeps the recursion
structural so the definition evaluates by reduction. -/
def listReplaceAux (pat rep : List Char) : Nat → List Char → List Char
  | _, [] => []
  | 0, s => s
  | fuel + 1, c :: rest =>
    if pat ≠ [] ∧ listStartsWith pat (c :: rest) then
      rep ++ listReplaceAux pat rep fuel (List.drop (pat.length - 1) rest)
    else c :: listReplaceAux pat rep fuel rest

/-- Python `s.replace(pat, rep)`. -/
def strReplace (s pat rep : String) : String :=
  String.mk (listReplaceAux pat.toList rep.toList s.toList.length s.toList)

/-- A parsed format spec: empty, `.Nf` fixed-point, or `d`-style integer
with optional zero-padded width. -/
inductive FmtSpec where
  | plain
  | fixed (prec : Nat)
  | intPad (width : Nat) (zero : Bool)
deriving DecidableEq, Repr

/-- Digits of a non-empty decimal numeral. -/
def digitsToNat (cs : List Char) : Option Nat :=
  if cs ≠ [] ∧ cs.all (fun c => c.isDigit) then
    some (cs.foldl (fun n c => n * 10 + (c.toNat - 48)) 0)
  else none

/-- Parse the characters between `:` and the closing brace of a
placeholder into a `FmtSpec` (the subset of Python format specs the
checkpoint templates use). -/
def parseFmtSpec (cs : List Char) : Option FmtSpec :=
  match cs with
  | [] => some .plain
  | '.' :: rest =>
    match rest.getLast? with
    | some 'f' =>
      match digitsToNat rest.dropLast with
      | some n => some (.fixed n)
      | none => none
    | _ => none
  | _ =>
    match cs.getLast? with
    | some 'd' =>
      match cs.dropLast with
      | [] => some (.intPad 0 false)
      | '0' :: ds =>
        match digitsToNat ds with
        | some w => some (.intPad w true)
        | none => none
      | ds =>
        match digitsToNat ds with
        | some w => some (.intPad w false)
        | none => none
    | _ => none

/-- Round the fraction `a / b` (with `b > 0`) to the nearest integer, ties
to even (the rounding Python's fixed-point float formatting applies).
Works on raw numerator and denominator with integer primitives only. -/
def roundHalfEvenFrac (a : Int) (b : Nat) : Int :=
  let f := Int.fdiv a b
  let r := a - f * b
  if 2 * r < b then f
  else if (b : Int) < 2 * r then f + 1
  else if f % 2 = 0 then f else f + 1

/-- Left-pad a numeral with zeros to the given width. -/
def padZerosLeft (s : String) (w : Nat) : String :=
  if s.length ≥ w then s
  else String.mk (List.replicate (w - s.length) '0') ++ s

/-- Python `"\x7b:.Nf\x7d".format(q)`: fixed-point with `prec` decimals
(`q * 10 ^ prec` rounded half-to-even, computed on the reduced
numerator/denominator). -/
def formatFixed (q : ℚ) (prec : Nat) : String :=
  let scaled := roundHalfEvenFrac (q.num * (10 : Int) ^ prec) q.den
  let sign := if scaled < 0 then "-" else ""
  let n := scaled.natAbs
  let base := (10 : Nat) ^ prec
  if prec = 0 then sign ++ toString n
  else sign ++ toString (n / base) ++ "." ++ padZerosLeft (toString (n % base)) prec

/-- Python `"\x7b:Nd\x7d".format(i)`: integer with optional
(zero-)padded minimum width. -/
def formatIntPadded (i : Int) (w : Nat) (zero : Bool) : String :=
  let s := toString i
  if s.length ≥ w then s
  else if zero then
    if i < 0 then "-" ++ padZerosLeft (toString i.natAbs) (w - 1)
    else padZerosLeft s w
  else String.mk (List.replicate (w - s.length) ' ') ++ s

/-- Default rendering of a rational scalar: its exact finite decimal
expansion when one exists (Python renders floats in decimal; templates in
this code base never default-format a non-decimal value).  A denominator
divides `10 ^ k` exactly when `q * 10 ^ k` is integral. -/
def ratDecimalStr (q : ℚ) : Option String :=
  match (List.range 31).find? (fun k => (10 : Nat) ^ k % q.den == 0) with
  | none => none
  | some k =>
    let scaled := q.num * (((10 : Nat) ^ k / q.den : Nat) : Int)
    let sign := if scaled < 0 then "-" else ""
    let n := scaled.natAbs
    let base := (10 : Nat) ^ k
    if k = 0 then some (sign ++ toString n ++ ".0")
    else some (sign ++ toString (n / base) ++ "." ++ padZerosLeft (toString (n % base)) k)

/-- Render one value under a parsed format spec; `none` models the
ValueError Python raises on an inapplicable spec. -/
def formatVal (v : MetricVal) (spec : FmtSpec) : Option String :=
  match spec, v with
  | .plain, .int i => some (toString i)
  | .plain, .num q => ratDecimalStr q
  | .fixed p, .int i => some (formatFixed (i : ℚ) p)
  | .fixed p, .num q => some (formatFixed q p)
  | .intPad w z, .int i => some (formatIntPadded i w z)
  | .intPad _ _, .num _ => none

/-- State of the `str.format` scanner: in a literal run, reading a field
name, or reading a format spec for a named field. -/
inductive PFState where
  | lit
  | field (acc : List Char)
  | fspec (nm : List Char) (acc : List Char)
deriving Repr

/-- Python `template.format(**m)` for string-keyed named fields: literal
runs are copied (doubled braces escape), `\x7bname\x7d` and
`\x7bname:spec\x7d` are looked up in `m` and rendered; `none` models the
KeyError / ValueError failure modes. -/
def pyFormatAux (m : Metrics) : List Char → PFState → String → Option String
  | [], .lit, out => some out
  | [], .field _, _ => none
  | [], .fspec _ _, _ => none
  | '{' :: '{' :: rest, .lit, out => pyFormatAux m rest .lit (out ++ "\x7b")
  | '}' :: '}' :: rest, .lit, out => pyFormatAux m rest .lit (out ++ "\x7d")
  | c :: rest, .lit, out =>
    if c = '{' then pyFormatAux m rest (.field []) out
    else if c = '}' then none
    else pyFormatAux m rest .lit (out.push c)
  | c :: rest, .field acc, out =>
    if c = '}' then
      match dictGet m (String.mk acc.reverse) with
      | none => none
      | some v =>
        match formatVal v .plain with
        | none => none
        | some sv => pyFormatAux m rest .lit (out ++ sv)
    else if c = ':' then pyFormatAux m rest (.fspec acc.reverse []) out
    else if c = '{' then none
    else pyFormatAux m rest (.field (c :: acc)) out
  | c :: rest, .fspec nm acc, out =>
    if c = '}' then
      match dictGet m (String.mk nm) with
      | none => none
      | some v =>
        match parseFmtSpec acc.reverse with
        | none => none
        | some sp =>
          match formatVal v sp with
          | none => none
          | some sv => pyFormatAux m rest .lit (out ++ sv)
    else if c = '{' then none
    else pyFormatAux m rest (.fspec nm (c :: acc)) out

/-- `template.format(**m)`. -/
def pyFormat (template : String) (m : Metrics) : Option String :=
  pyFormatAux m template.toList .lit ""

/-- `group[1:]`: the placeholder name of a captured group. -/
def groupName (g : String) : String :=
  String.mk (g.toList.drop 1)

/-- One loop iteration on the template string:
`filename = filename.replace(group, name + "=\x7b" + name)`. -/
def stepStr (fn g : String) : String :=
  strReplace fn g (groupName g ++ "=\x7b" ++ groupName g)

/-- One loop iteration on the metrics dict:
`if name not in metrics: metrics[name] = 0`. -/
def addDefault (m : Metrics) (nm : String) : Metrics :=
  if containsKey m nm then m else dictInsert m nm (MetricVal.int 0)

/-- `filename = "\x7bepoch\x7d" if not filename`: default the template. -/
def fmtTemplate (filename : Option String) : String :=
  match filename with
  | none => "\x7bepoch\x7d"
  | some f => if f = "" then "\x7bepoch\x7d" else f

/-- The template half of the `for group in groups` loop: apply `stepStr`
for each captured group in order. -/
def foldStr (gs : List String) (fn : String) : String :=
  gs.foldl stepStr fn

/-- The metrics half of the `for group in groups` loop: apply `addDefault`
for each captured group's name in order.  (The loop body's two statements
touch disjoint state — the template string and the metrics dict — so the
single Python loop is split into these two folds.) -/
def foldDefaults (gs : List String) (m : Metrics) : Metrics :=
  gs.foldl (fun acc g => addDefault acc (groupName g)) m

/-- `ModelCheckpoint._format_checkpoint_name` (classmethod).  Returns the
joined name together with the metrics dict as mutated by the call
(`metrics["epoch"] = epoch` plus zero defaults for unseen placeholder
names); `none` models a formatting exception. -/
def _format_checkpoint_name (filename : Option String) (epoch : Int)
    (metrics : Metrics) (pfx : String) : Option (String × Metrics) :=
  let fn0 := fmtTemplate filename
  let groups := pyFindGroups fn0
  if groups = [] then some (joinTxts pfx fn0, metrics)
  else
    let m2 := foldDefaults groups (dictInsert metrics "epoch" (MetricVal.int epoch))
    match pyFormat (foldStr groups fn0) m2 with
    | none => none
    | some rendered => some (joinTxts pfx rendered, m2)

/-! ### The callback state and the trainer's per-cycle inputs -/

/-- The mutable attributes of a `ModelCheckpoint` instance (the save
delegate and filesystem handle are supplied externally per call). -/
structure MCState where
  monitor : Option String
  verbose : Bool
  save_last : Bool
  save_top_k : Int
  save_weights_only : Bool
  period : Int
  epoch_last_check : Option Int
  pfx : String
  best_k_models : List (String × ℚ)
  kth_best_model_path : String
  kth_value : EScore
  best_model_score : ℚ
  best_model_path : String
  last_model_path : String
  mode : String
  dirpath : Option String
  filename : Option String
deriving DecidableEq, Repr

/-- What the trainer exposes to one `save_checkpoint` call. -/
structure TrainerInput where
  global_rank : Int
  running_sanity_check : Bool
  current_epoch : Int
  logged_metrics : Metrics
  callback_metrics : Metrics
  progress_bar_metrics : Metrics
  fs_exists : String → Bool
  save_function_set : Bool

/-- Filesystem answers consumed by `__init_ckpt_dir` at construction. -/
structure InitFs where
  isdir : String → Bool
  ls_nonempty : String → Bool

/-! ### Constructor (`__init__` and its helpers) -/

/-- `ModelCheckpoint.__init_monitor_mode`: resolve `(kth_value, mode)` from
the monitor key and mode string; the Bool records whether the
unknown-mode warning was emitted (after which "auto" is substituted). -/
def __init_monitor_mode (monitor : Option String) (mode : String) :
    (EScore × String) × Bool :=
  let autoPair : EScore × String :=
    if (match monitor with
        | some m => strContainsSub m "acc" || strStartsWith m "fmeasure"
        | none => false) then
      (EScore.negInf, "max")
    else (EScore.posInf, "min")
  if mode = "min" then ((EScore.posInf, "min"), false)
  else if mode = "max" then ((EScore.negInf, "max"), false)
  else if mode = "auto" then (autoPair, false)
  else (autoPair, true)

/-- `ModelCheckpoint.__init_ckpt_dir`: derive `(dirpath, filename)` from
the constructor's `filepath` (realpath canonicalisation of local paths is
modelled as the identity) and possibly warn about a non-empty directory. -/
def __init_ckpt_dir (fsi : InitFs) (filepath : Option String)
    (save_top_k : Int) : (Option String × Option String) × List Effect :=
  let warnEff :=
    match filepath with
    | some fp =>
      if save_top_k > 0 ∧ fsi.isdir fp ∧ fsi.ls_nonempty fp then
        [Effect.warn ("Checkpoint directory " ++ fp ++ " exists and is not empty with save_top_k != 0. All files in this directory will be deleted when a checkpoint is saved!")]
      else []
    | none => []
  match filepath with
  | none => ((none, none), warnEff)
  | some fp =>
    if fp = "" then ((none, none), warnEff)
    else if fsi.isdir fp then ((some fp, none), warnEff)
    else
      let df := splitPath fp
      ((some df.1, some df.2), warnEff)

/-- `ModelCheckpoint.__init__`: build the initial state; the error
component models `__validate_init_configuration` raising
`MisconfigurationException` when `save_top_k != 1` and no monitor key is
configured. -/
def mkModelCheckpoint (fsi : InitFs) (filepath monitor : Option String)
    (verbose save_last : Bool) (save_top_k : Int)
    (save_weights_only : Bool) (mode : String) (period : Int)
    (pfx : String) : (MCState × List Effect) × Option PyError :=
  let mm := __init_monitor_mode monitor mode
  let dir := __init_ckpt_dir fsi filepath save_top_k
  let s : MCState :=
    { monitor := monitor
      verbose := verbose
      save_last := save_last
      save_top_k := save_top_k
      save_weights_only := save_weights_only
      period := period
      epoch_last_check := none
      pfx := pfx
      best_k_models := []
      kth_best_model_path := ""
      kth_value := mm.1.1
      best_model_score := 0
      best_model_path := ""
      last_model_path := ""
      mode := mm.1.2
      dirpath := dir.1.1
      filename := dir.1.2 }
  let effs :=
    (if mm.2 then
      [Effect.warn ("ModelCheckpoint mode " ++ mode ++ " is unknown, fallback to auto mode.")]
    else []) ++ dir.2
  ((s, effs),
   if save_top_k ≠ 1 ∧ monitor = none then
     some (.misconfiguration "To save checkpoints for a top_k metric, ModelCheckpoint(monitor) cannot be None")
   else none)

/-! ### Name generation and collision probing -/

/-- The suffixing and directory-joining tail of `format_checkpoint_name`:
append `-v{ver}` when a version is given, add the `.ckpt` extension, and
join onto `dirpath` when one is set (Python truthiness: an empty or unset
dirpath leaves the bare name). -/
def verName (s : MCState) (base : String) (ver : Option Nat) : String :=
  let fn2 :=
    match ver with
    | none => base
    | some v => base ++ "-v" ++ toString v
  let ckpt := fn2 ++ ".ckpt"
  match s.dirpath with
  | some d => if d ≠ "" then osPathJoin d ckpt else ckpt
  | none => ckpt

/-- `ModelCheckpoint.format_checkpoint_name`: format the template with the
metrics (mutating them) and attach version suffix, extension and
directory. -/
def format_checkpoint_name (s : MCState) (epoch : Int) (metrics : Metrics)
    (ver : Option Nat) : Option (String × Metrics) :=
  match _format_checkpoint_name s.filename epoch metrics s.pfx with
  | none => none
  | some nm => some (verName s nm.1 ver, nm.2)

/-- The `while self._fs.exists(filepath)` probing loop of
`_get_metric_interpolated_filepath_name`, with explicit fuel (the Python
loop is unbounded); the metrics dict is threaded because each iteration
re-runs the formatter on the same dict object. -/
def interpAux (s : MCState) (epoch : Int) (fs : String → Bool) :
    Nat → String → Metrics → Nat → Option (String × Metrics)
  | 0, fp, m, _ => if fs fp then none else some (fp, m)
  | fuel + 1, fp, m, cnt =>
    if fs fp then
      match format_checkpoint_name s epoch m (some cnt) with
      | none => none
      | some nm => interpAux s epoch fs fuel nm.1 nm.2 (cnt + 1)
    else some (fp, m)

/-- `ModelCheckpoint._get_metric_interpolated_filepath_name`: candidate
with no version suffix first, then versions 0, 1, 2, … until a path does
not exist on storage. -/
def _get_metric_interpolated_filepath_name (s : MCState) (epoch : Int)
    (m : Metrics) (fs : String → Bool) (fuel : Nat) :
    Option (String × Metrics) :=
  match format_checkpoint_name s epoch m none with
  | none => none
  | some nm => interpAux s epoch fs fuel nm.1 nm.2 0

/-! ### The retention policy engine -/

/-- `ModelCheckpoint._should_skip_epoch`. -/
def _should_skip_epoch (s : MCState) (epoch : Int) : Bool :=
  match s.epoch_last_check with
  | none => false
  | some last => epoch - last < s.period

/-- `ModelCheckpoint._add_backward_monitor_support`: backfill the monitor
key from `val_loss` / `checkpoint_on` present in the callback metrics when
none was configured. -/
def _add_backward_monitor_support (s : MCState) (cb : Metrics) : MCState :=
  let s1 :=
    if s.monitor = none ∧ containsKey cb "val_loss" then
      { s with monitor := some "val_loss" }
    else s
  if s1.monitor = none ∧ containsKey cb "checkpoint_on" then
    { s1 with monitor := some "checkpoint_on" }
  else s1

/-- `ModelCheckpoint._is_valid_monitor_key`. -/
def _is_valid_monitor_key (monitor : Option String) (metrics : Metrics) :
    Bool :=
  (match monitor with
   | some m => containsKey metrics m
   | none => false) || metrics.length == 0

/-- `ModelCheckpoint._validate_monitor_key`: raise
`MisconfigurationException` when a monitor key is configured but invalid
against the callback metrics. -/
def _validate_monitor_key (s : MCState) (cb : Metrics) : Option PyError :=
  if s.monitor.isSome ∧ ¬ _is_valid_monitor_key s.monitor cb then
    some (.misconfiguration ("ModelCheckpoint(monitor) not found in the returned metrics"))
  else none

/-- `ModelCheckpoint._monitor_candidates`: deep copy of the logged metrics
updated with callback and progress-bar metrics. -/
def _monitor_candidates (t : TrainerInput) : Metrics :=
  dictUpdate (dictUpdate t.logged_metrics t.callback_metrics)
    t.progress_bar_metrics

/-- `ModelCheckpoint._save_model`: delegate the save, or raise ValueError
when no save function is configured. -/
def _save_model (filepath : String) (save_function_set : Bool)
    (weights_only : Bool) : List Effect × Option PyError :=
  if save_function_set then ([Effect.save filepath weights_only], none)
  else ([], some (.valueError ".save_function() not set"))

/-- `ModelCheckpoint._save_last_checkpoint` (mode A, "last").  Returns the
state, the threaded metrics dict, the effect trace and a possible raise.
(The source joins `self.dirpath` without a None-check in the save-last
branch — a Python TypeError if the directory were still unresolved; the
model reads an unresolved dirpath as the empty string there.) -/
def _save_last_checkpoint (s : MCState) (epoch : Int) (metrics : Metrics)
    (filepath : String) (save_function_set : Bool) :
    MCState × Metrics × List Effect × Option PyError :=
  if ¬ (s.monitor = none ∨ s.save_last = true) then (s, metrics, [], none)
  else
    let lastRes : Option (String × Metrics) :=
      if s.save_last then
        match _format_checkpoint_name (some "last") epoch metrics s.pfx with
        | none => none
        | some nm =>
          some (osPathJoin (s.dirpath.getD "") (nm.1 ++ ".ckpt"), nm.2)
      else some (filepath, metrics)
    match lastRes with
    | none => (s, metrics, [], some (.valueError "format failed"))
    | some lp =>
      let sv := _save_model lp.1 save_function_set s.save_weights_only
      match sv.2 with
      | some e => (s, lp.2, sv.1, some e)
      | none =>
        let delEff :=
          if s.last_model_path ≠ "" ∧ s.last_model_path ≠ lp.1 then
            [Effect.del s.last_model_path]
          else []
        let s1 := { s with last_model_path := lp.1 }
        let s2 :=
          if s1.monitor = none then
            { s1 with best_model_path := s1.last_model_path }
          else s1
        (s2, lp.2, sv.1 ++ delEff, none)

/-- `ModelCheckpoint.check_monitor_top_k`: save unconditionally while the
best-k dict is below capacity, else require the current score to be
strictly better (lt for min mode, gt for max mode) than the tracked
kth-best entry's score; `none` models the KeyError raised on the
`monitor_op` lookup for a mode outside min/max, or on an invalid
`kth_best_model_path` lookup. -/
def check_monitor_top_k (s : MCState) (current : ℚ) : Option Bool :=
  if (s.best_k_models.length : Int) < s.save_top_k then some true
  else if s.mode = "min" then
    match dictGet s.best_k_models s.kth_best_model_path with
    | none => none
    | some kth => some (decide (current < kth))
  else if s.mode = "max" then
    match dictGet s.best_k_models s.kth_best_model_path with
    | none => none
    | some kth => some (decide (current > kth))
  else none

/-- `ModelCheckpoint._do_check_save`: evict the tracked kth-best entry when
at capacity, insert the new (path, score) entry, recompute the kth-best
and best pointers, persist, and delete the evicted file unless its path
coincides with the new one. -/
def _do_check_save (s : MCState) (filepath : String) (current : ℚ)
    (save_function_set : Bool) : MCState × List Effect × Option PyError :=
  let popRes : Option (MCState × List String) :=
    if (s.best_k_models.length : Int) = s.save_top_k ∧ s.save_top_k > 0 then
      match dictGet s.best_k_models s.kth_best_model_path with
      | none => none
      | some _ =>
        some ({ s with best_k_models := dictPop s.best_k_models s.kth_best_model_path },
              [s.kth_best_model_path])
    else some (s, [])
  match popRes with
  | none => (s, [], some (.keyError s.kth_best_model_path))
  | some sd =>
    let s1 := sd.1
    let del_list := sd.2
    let s2 := { s1 with best_k_models := dictInsert s1.best_k_models filepath current }
    let s3 :=
      if (s2.best_k_models.length : Int) = s2.save_top_k then
        match (if s2.mode = "min" then pyArgmax s2.best_k_models
               else pyArgmin s2.best_k_models) with
        | some kth =>
          { s2 with kth_best_model_path := kth.1, kth_value := EScore.val kth.2 }
        | none => s2
      else s2
    match (if s3.mode = "min" then pyArgmin s3.best_k_models
           else pyArgmax s3.best_k_models) with
    | none => (s3, [], some (.valueError "arg sequence is empty"))
    | some best =>
      let s4 := { s3 with best_model_path := best.1, best_model_score := best.2 }
      let effV :=
        if s4.verbose then
          [Effect.info ("monitor reached, saving model to " ++ filepath)]
        else []
      let sv := _save_model filepath save_function_set s4.save_weights_only
      match sv.2 with
      | some e => (s4, effV ++ sv.1, some e)
      | none =>
        let delEffs := (del_list.filter (fun p => p != filepath)).map Effect.del
        (s4, effV ++ sv.1 ++ delEffs, none)

/-- `ModelCheckpoint._save_top_k_checkpoints` (mode B, bounded top-k):
read the monitored score from the snapshot; warn and skip when it is
absent, save via `_do_check_save` when `check_monitor_top_k` passes, else
optionally log a verbose notice. -/
def _save_top_k_checkpoints (metrics : Metrics) (s : MCState) (epoch : Int)
    (filepath : String) (save_function_set : Bool) :
    MCState × List Effect × Option PyError :=
  let current :=
    match s.monitor with
    | none => none
    | some mo => dictGet metrics mo
  match current with
  | none =>
    let msg :=
      if s.monitor = some "checkpoint_on" then
        "No checkpoint_on found. Hint: Did you set it in EvalResult(checkpoint_on=tensor) or TrainResult(checkpoint_on=tensor)?"
      else
        "Can save best model only with " ++ (s.monitor.getD "") ++ " available, skipping."
    (s, [Effect.warn msg], none)
  | some v =>
    match check_monitor_top_k s (toScore v) with
    | none => (s, [], some (.keyError s.kth_best_model_path))
    | some true => _do_check_save s filepath (toScore v) save_function_set
    | some false =>
      (s,
       if s.verbose then
         [Effect.info ("Epoch " ++ toString epoch ++ ": monitor was not in top " ++ toString s.save_top_k)]
       else [], none)

/-- `ModelCheckpoint._save_all_checkpoints` (save-all, `save_top_k == -1`). -/
def _save_all_checkpoints (s : MCState) (epoch : Int) (filepath : String)
    (global_rank : Int) (save_function_set : Bool) :
    MCState × List Effect × Option PyError :=
  let effV :=
    if s.verbose then
      [Effect.info ("Epoch " ++ toString epoch ++ ": saving model to " ++ filepath)]
    else []
  if global_rank ≠ 0 then
    (s, effV, some (.assertionError "tried to make a checkpoint from non global_rank=0"))
  else
    let sv := _save_model filepath save_function_set s.save_weights_only
    (s, effV ++ sv.1, sv.2)

/-- `ModelCheckpoint.save_checkpoint`: the per-cycle entry point — gate
checks, monitor backfill and validation, epoch bookkeeping, candidate
name, "last" mode, then save-all or top-k mode. -/
def save_checkpoint (s : MCState) (t : TrainerInput) (fuel : Nat) :
    MCState × List Effect × Option PyError :=
  if t.global_rank ≠ 0 then (s, [], none)
  else if s.save_top_k = 0 then (s, [], none)
  else if t.running_sanity_check then (s, [], none)
  else if _should_skip_epoch s t.current_epoch then (s, [], none)
  else
    let s1 := _add_backward_monitor_support s t.callback_metrics
    match _validate_monitor_key s1 t.callback_metrics with
    | some e => (s1, [], some e)
    | none =>
      let epoch := t.current_epoch
      let s2 := { s1 with epoch_last_check := some epoch }
      let cand := _monitor_candidates t
      match _get_metric_interpolated_filepath_name s2 epoch cand t.fs_exists fuel with
      | none => (s2, [], some (.valueError "filepath interpolation failed"))
      | some fpm =>
        let slr := _save_last_checkpoint s2 epoch fpm.2 fpm.1 t.save_function_set
        match slr.2.2.2 with
        | some e => (slr.1, slr.2.2.1, some e)
        | none =>
          match slr.1.monitor with
          | none => (slr.1, slr.2.2.1, none)
          | some _ =>
            if slr.1.save_top_k = -1 then
              let sar := _save_all_checkpoints slr.1 epoch fpm.1 t.global_rank t.save_function_set
              (sar.1, slr.2.2.1 ++ sar.2.1, sar.2.2)
            else
              let str := _save_top_k_checkpoints slr.2.1 slr.1 epoch fpm.1 t.save_function_set
              (str.1, slr.2.2.1 ++ str.2.1, str.2.2)

/-- A sequence of triggered cycles: fold `save_checkpoint` over the
trainer inputs, keeping the state each cycle leaves behind. -/
def runCycles (s : MCState) (fuel : Nat) (ts : List TrainerInput) : MCState :=
  ts.foldl (fun st t => (save_checkpoint st t fuel).1) s

/-! ### Configuration frame and concrete fixtures -/

/-- The configuration fields of the state that `save_checkpoint` never
touches (the monitor key is handled separately: backward-compatibility
support may backfill it from `None`). -/
def SameCfg (s s2 : MCState) : Prop :=
  s2.mode = s.mode ∧ s2.save_top_k = s.save_top_k ∧ s2.period = s.period ∧
  s2.save_last = s.save_last ∧ s2.save_weights_only = s.save_weights_only ∧
  s2.pfx = s.pfx ∧ s2.dirpath = s.dirpath ∧ s2.filename = s.filename

/-- Construction-time filesystem answering "nothing exists". -/
def exInitFs : InitFs :=
  { isdir := fun _ => false, ls_nonempty := fun _ => false }

/-- A freshly constructed callback with the given monitor key and top-k
count (no filepath, defaults otherwise). -/
def exState (monitor : Option String) (k : Int) : MCState :=
  (mkModelCheckpoint exInitFs none monitor false false k false "auto" 1 "").1.1

/-- A baseline trainer input: coordinator, epoch 0, empty metrics, empty
storage, save delegate configured. -/
def exInput : TrainerInput :=
  { global_rank := 0
    running_sanity_check := false
    current_epoch := 0
    logged_metrics := []
    callback_metrics := []
    progress_bar_metrics := []
    fs_exists := fun _ => false
    save_function_set := true }

/-- Input whose callback metrics hold a `loss` value of 0.9. -/
def exLossInput : TrainerInput :=
  { exInput with callback_metrics := [("loss", MetricVal.num 9)] }

/-- Input whose callback metrics are non-empty but lack the monitored key. -/
def exBadInput : TrainerInput :=
  { exInput with callback_metrics := [("acc", MetricVal.num 1)] }

/-- Input whose callback metrics hold `val_loss` (triggers the
backward-compatibility monitor backfill when no monitor is set). -/
def exBackfillInput : TrainerInput :=
  { exInput with callback_metrics := [("val_loss", MetricVal.num 1)] }

/-- A monitored state at capacity: one tracked model with score 1/2 for
`save_top_k = 1`. -/
def exCapState : MCState :=
  { exState (some "loss") 1 with
      best_k_models := [("p1.ckpt", 5)]
      kth_best_model_path := "p1.ckpt" }

/-- Storage on which the unversioned candidate `epoch=0.ckpt` and the
first versioned candidate `epoch=0-v0.ckpt` already exist. -/
def exFs : String → Bool :=
  fun p => p == "epoch=0.ckpt" || p == "epoch=0-v0.ckpt"

/-- The scenario's score 0.1234 as a rational in lowest terms (617/5000),
built from raw numerator and denominator so it evaluates by reduction. -/
def exScoreVal : ℚ := ⟨617, 5000, by norm_num, by norm_num⟩

/-- A callback constructed with the template `"\x7bepoch\x7d-\x7bscore:.2f\x7d"`,
prefix `"run"` and monitor `score` (the spec's Scenario 5; the spec calls
the injected per-cycle index `cycle`, the code names it `epoch`). -/
def exTmplState : MCState :=
  (mkModelCheckpoint exInitFs (some "\x7bepoch\x7d-\x7bscore:.2f\x7d")
    (some "score") false false 1 false "auto" 1 "run").1.1

/-! ### Lemmas about the dict operations -/

theorem containsKey_eq_isSome_dictGet {α : Type} (d : List (String × α))
    (k : String) : containsKey d k = (dictGet d k).isSome := by
  induction d with
  | nil => rfl
  | cons p rest ih =>
    simp only [containsKey, dictGet]
    by_cases h : p.1 = k <;> simp [h, ih]

theorem dictGet_append {α : Type} (d1 d2 : List (String × α)) (x : String) :
    dictGet (d1 ++ d2) x =
      match dictGet d1 x with
      | some v => some v
      | none => dictGet d2 x := by
  induction d1 with
  | nil => rfl
  | cons p rest ih =>
    simp only [List.cons_append, dictGet]
    by_cases h : p.1 = x <;> simp [h, ih]

theorem dictGet_none_of_not_containsKey {α : Type} (d : List (String × α))
    (k : String) (h : containsKey d k = false) : dictGet d k = none := by
  have hc := containsKey_eq_isSome_dictGet d k
  rw [h] at hc
  cases hd : dictGet d k with
  | none => rfl
  | some w => rw [hd] at hc; simp at hc

theorem dictGet_map_update {α : Type} (d : List (String × α)) (k x : String)
    (v : α) :
    dictGet (d.map (fun p => if p.1 = k then (k, v) else p)) x =
      if x = k then (if containsKey d k then some v else none)
      else dictGet d x := by
  induction d with
  | nil => simp [dictGet, containsKey]
  | cons p rest ih =>
    simp only [List.map_cons, containsKey]
    by_cases hp : p.1 = k
    · by_cases hx : x = k
      · simp [dictGet, hp, hx]
      · have hkx : ¬ (k = x) := fun h => hx h.symm
        have hpx : ¬ (p.1 = x) := fun h2 => hx (h2.symm.trans hp)
        simp only [if_pos hp, dictGet, if_neg hkx, if_neg hpx, ih, if_neg hx]
    · by_cases hpx : p.1 = x
      · have hx : ¬ x = k := fun h => hp (hpx.trans h)
        simp [dictGet, hp, hpx, hx]
      · simp [dictGet, hp, hpx, ih]

theorem dictGet_dictInsert {α : Type} (d : List (String × α)) (k x : String)
    (v : α) :
    dictGet (dictInsert d k v) x =
      if x = k then some v else dictGet d x := by
  unfold dictInsert
  by_cases h : containsKey d k
  · simp only [h, if_true, dictGet_map_update, h]
  · have h' : containsKey d k = false := by
      revert h
      cases containsKey d k <;> simp
    rw [h']
    simp only [Bool.false_eq_true, if_false]
    rw [dictGet_append]
    by_cases hx : x = k
    · subst hx
      have hnone : dictGet d x = none := by
        apply dictGet_none_of_not_containsKey
        revert h
        cases containsKey d x <;> simp
      rw [hnone]
      simp [dictGet]
    · cases hd : dictGet d x with
      | none =>
        have hkx : ¬ ((k : String) = x) := fun h2 => hx h2.symm
        simp [dictGet, hkx, hx]
      | some w => simp [hx]

theorem length_dictInsert {α : Type} (d : List (String × α)) (k : String)
    (v : α) :
    (dictInsert d k v).length =
      if containsKey d k then d.length else d.length + 1 := by
  unfold dictInsert
  by_cases h : containsKey d k <;> simp [h]

theorem length_dictInsert_le {α : Type} (d : List (String × α)) (k : String)
    (v : α) : (dictInsert d k v).length ≤ d.length + 1 := by
  rw [length_dictInsert]
  split <;> omega

theorem length_dictPop_le {α : Type} (d : List (String × α)) (k : String) :
    (dictPop d k).length ≤ d.length := by
  induction d with
  | nil => simp [dictPop]
  | cons p rest ih =>
    simp only [dictPop]
    by_cases h : p.1 = k
    · simp only [if_pos h, List.length_cons]
      omega
    · simp only [if_neg h, List.length_cons]
      omega

theorem length_dictPop_lt {α : Type} (d : List (String × α)) (k : String)
    (h : containsKey d k = true) : (dictPop d k).length < d.length := by
  induction d with
  | nil => simp [containsKey] at h
  | cons p rest ih =>
    simp only [containsKey, Bool.or_eq_true, decide_eq_true_eq] at h
    simp only [dictPop]
    by_cases hp : p.1 = k
    · simp only [if_pos hp, List.length_cons]
      have := length_dictPop_le rest k
      omega
    · simp only [if_neg hp, List.length_cons]
      have hr : containsKey rest k = true := h.resolve_left hp
      have := ih hr
      omega

theorem containsKey_dictInsert {α : Type} (d : List (String × α))
    (k y : String) (v : α) :
    containsKey (dictInsert d k v) y =
      (containsKey d y || decide (y = k)) := by
  have h1 := containsKey_eq_isSome_dictGet (dictInsert d k v) y
  have h2 := containsKey_eq_isSome_dictGet d y
  rw [dictGet_dictInsert] at h1
  by_cases hy : y = k
  · simp [hy] at h1 ⊢
    simp [h1]
  · simp [hy] at h1 ⊢
    rw [h1, h2]

/-! ### The formatter is stable on its own output metrics -/

/-- All entries of a dict under the given key carry the given value, and
the key is present.  `dictInsert d k v` establishes this, and re-inserting
then becomes the identity. -/
def AllVal {α : Type} (d : List (String × α)) (k : String) (v : α) : Prop :=
  containsKey d k = true ∧ ∀ p ∈ d, p.1 = k → p.2 = v

theorem containsKey_of_mem {α : Type} {d : List (String × α)}
    {p : String × α} {k : String} (hmem : p ∈ d) (hk : p.1 = k) :
    containsKey d k = true := by
  induction d with
  | nil => simp at hmem
  | cons q rest ih =>
    simp only [containsKey, Bool.or_eq_true, decide_eq_true_eq]
    rcases List.mem_cons.mp hmem with rfl | hm
    · exact Or.inl hk
    · exact Or.inr (ih hm)

theorem allVal_dictInsert_self {α : Type} (d : List (String × α))
    (k : String) (v : α) : AllVal (dictInsert d k v) k v := by
  constructor
  · rw [containsKey_dictInsert]
    simp
  · intro p hp hk
    unfold dictInsert at hp
    by_cases h : containsKey d k
    · rw [if_pos h] at hp
      obtain ⟨q, _, hq⟩ := List.mem_map.mp hp
      by_cases hq1 : q.1 = k
      · rw [if_pos hq1] at hq
        rw [← hq]
      · rw [if_neg hq1] at hq
        rw [← hq] at hk
        exact absurd hk hq1
    · rw [if_neg h] at hp
      rcases List.mem_append.mp hp with hmem | hmem
      · exact absurd (containsKey_of_mem hmem hk) h
      · simp at hmem
        rw [hmem]

theorem map_update_eq_of_allVal {α : Type} (d : List (String × α))
    (k : String) (v : α) (hall : ∀ p ∈ d, p.1 = k → p.2 = v) :
    d.map (fun p => if p.1 = k then (k, v) else p) = d := by
  induction d with
  | nil => rfl
  | cons p rest ih =>
    simp only [List.map_cons]
    congr 1
    · by_cases hp : p.1 = k
      · rw [if_pos hp]
        have hv := hall p (List.mem_cons_self _ _) hp
        cases p with
        | mk a b =>
          simp only at hp hv
          rw [hp, hv]
      · rw [if_neg hp]
    · exact ih (fun q hq hqk => hall q (List.mem_cons_of_mem _ hq) hqk)

theorem dictInsert_eq_of_allVal {α : Type} (d : List (String × α))
    (k : String) (v : α) (h : AllVal d k v) : dictInsert d k v = d := by
  obtain ⟨hc, hall⟩ := h
  unfold dictInsert
  rw [if_pos hc]
  exact map_update_eq_of_allVal d k v hall

theorem allVal_addDefault (d : Metrics) (k nm : String)
    (v : MetricVal) (h : AllVal d k v) : AllVal (addDefault d nm) k v := by
  unfold addDefault
  by_cases hc : containsKey d nm
  · rw [if_pos hc]
    exact h
  · rw [if_neg hc]
    obtain ⟨hk, hall⟩ := h
    have hne : nm ≠ k := by
      intro hEq
      rw [hEq] at hc
      exact hc hk
    unfold dictInsert
    rw [if_neg hc]
    constructor
    · rw [containsKey_eq_isSome_dictGet, dictGet_append]
      rw [containsKey_eq_isSome_dictGet] at hk
      cases hg : dictGet d k with
      | none => rw [hg] at hk; simp at hk
      | some w => simp
    · intro p hp hpk
      rcases List.mem_append.mp hp with hm | hm
      · exact hall p hm hpk
      · simp at hm
        rw [hm] at hpk
        simp at hpk
        exact absurd hpk hne

theorem containsKey_addDefault_self (m : Metrics) (nm : String) :
    containsKey (addDefault m nm) nm = true := by
  unfold addDefault
  by_cases hc : containsKey m nm
  · rw [if_pos hc]
    exact hc
  · rw [if_neg hc, containsKey_dictInsert]
    simp

theorem containsKey_addDefault_mono (m : Metrics) (nm y : String)
    (h : containsKey m y = true) :
    containsKey (addDefault m nm) y = true := by
  unfold addDefault
  by_cases hc : containsKey m nm
  · rw [if_pos hc]
    exact h
  · rw [if_neg hc, containsKey_dictInsert, h]
    simp

theorem containsKey_foldDefaults_mono (gs : List String) (m : Metrics)
    (y : String) (h : containsKey m y = true) :
    containsKey (foldDefaults gs m) y = true := by
  induction gs generalizing m with
  | nil => exact h
  | cons g rest ih =>
    unfold foldDefaults
    simp only [List.foldl_cons]
    exact ih _ (containsKey_addDefault_mono m (groupName g) y h)

theorem containsKey_foldDefaults_all (gs : List String) (m : Metrics) :
    ∀ g ∈ gs, containsKey (foldDefaults gs m) (groupName g) = true := by
  induction gs generalizing m with
  | nil => intro g hg; simp at hg
  | cons g0 rest ih =>
    intro g hg
    unfold foldDefaults
    simp only [List.foldl_cons]
    rcases List.mem_cons.mp hg with rfl | hm
    · exact containsKey_foldDefaults_mono rest _ _
        (containsKey_addDefault_self m (groupName g))
    · exact ih _ g hm

theorem foldDefaults_eq_of_all (gs : List String) (m : Metrics)
    (h : ∀ g ∈ gs, containsKey m (groupName g) = true) :
    foldDefaults gs m = m := by
  induction gs with
  | nil => rfl
  | cons g rest ih =>
    unfold foldDefaults
    simp only [List.foldl_cons]
    have hg : addDefault m (groupName g) = m := by
      unfold addDefault
      rw [if_pos (h g (List.mem_cons_self _ _))]
    rw [hg]
    exact ih (fun g2 hg2 => h g2 (List.mem_cons_of_mem _ hg2))

theorem allVal_foldDefaults (gs : List String) (m : Metrics) (k : String)
    (v : MetricVal) (h : AllVal m k v) :
    AllVal (foldDefaults gs m) k v := by
  induction gs generalizing m with
  | nil => exact h
  | cons g rest ih =>
    unfold foldDefaults
    simp only [List.foldl_cons]
    exact ih _ (allVal_addDefault m k (groupName g) v h)

/-- Re-running `_format_checkpoint_name` on the metrics dict an earlier
call returned yields the same name and leaves the dict unchanged: the
`epoch` entry is re-set to the same value and every placeholder name is
already present.  (This is what makes the collision-probing loop, which
re-formats the same dict object each iteration, produce a fixed base
name.) -/
theorem format_name_stable (filename : Option String) (epoch : Int)
    (m : Metrics) (px : String) (n : String) (m2 : Metrics)
    (h : _format_checkpoint_name filename epoch m px = some (n, m2)) :
    _format_checkpoint_name filename epoch m2 px = some (n, m2) := by
  unfold _format_checkpoint_name at h ⊢
  by_cases hg : pyFindGroups (fmtTemplate filename) = []
  · simp only [hg, if_true, Option.some.injEq, Prod.mk.injEq] at h ⊢
    exact ⟨h.1, trivial⟩
  · simp only [hg, if_false] at h ⊢
    have hAll1 : AllVal (dictInsert m "epoch" (MetricVal.int epoch))
        "epoch" (MetricVal.int epoch) := allVal_dictInsert_self m _ _
    have hAll2 : AllVal
        (foldDefaults (pyFindGroups (fmtTemplate filename))
          (dictInsert m "epoch" (MetricVal.int epoch)))
        "epoch" (MetricVal.int epoch) :=
      allVal_foldDefaults _ _ _ _ hAll1
    cases hpf : pyFormat (foldStr (pyFindGroups (fmtTemplate filename)) (fmtTemplate filename))
        (foldDefaults (pyFindGroups (fmtTemplate filename))
          (dictInsert m "epoch" (MetricVal.int epoch))) with
    | none => rw [hpf] at h; simp at h
    | some rendered =>
      rw [hpf] at h
      simp only [Option.some.injEq, Prod.mk.injEq] at h
      obtain ⟨hn, hm2⟩ := h
      have hins : dictInsert m2 "epoch" (MetricVal.int epoch) = m2 := by
        apply dictInsert_eq_of_allVal
        exact hm2 ▸ hAll2
      have hfd : foldDefaults (pyFindGroups (fmtTemplate filename)) m2 = m2 := by
        apply foldDefaults_eq_of_all
        intro g hg2
        rw [← hm2]
        exact containsKey_foldDefaults_all _ _ g hg2
      rw [hins, hfd, ← hm2, hpf]
      simp only [hm2, hn]

/-- The probing loop, started from a stabilised metrics dict, returns the
first candidate in the sequence `cnt, cnt+1, …` whose path does not exist,
or the start path itself when that does not exist. -/
theorem interpAux_first_free (s : MCState) (epoch : Int)
    (fs : String → Bool) (nbase : String) (m1 : Metrics)
    (Hst : _format_checkpoint_name s.filename epoch m1 s.pfx = some (nbase, m1)) :
    ∀ fuel cnt fp p mf, interpAux s epoch fs fuel fp m1 cnt = some (p, mf) →
      mf = m1 ∧ fs p = false ∧
      ((p = fp ∧ fs fp = false) ∨
       (fs fp = true ∧ ∃ n, cnt ≤ n ∧ p = verName s nbase (some n) ∧
          fs (verName s nbase (some n)) = false ∧
          ∀ i, cnt ≤ i → i < n → fs (verName s nbase (some i)) = true)) := by
  intro fuel
  induction fuel with
  | zero =>
    intro cnt fp p mf h
    unfold interpAux at h
    by_cases hfs : fs fp = true
    · rw [if_pos hfs] at h
      simp at h
    · rw [if_neg hfs] at h
      simp only [Option.some.injEq, Prod.mk.injEq] at h
      refine ⟨h.2.symm, ?_, Or.inl ⟨h.1.symm, ?_⟩⟩
      · rw [← h.1]
        exact Bool.not_eq_true _ ▸ hfs
      · exact Bool.not_eq_true _ ▸ hfs
  | succ fuel ih =>
    intro cnt fp p mf h
    unfold interpAux at h
    by_cases hfs : fs fp = true
    · rw [if_pos hfs] at h
      have hfmt : format_checkpoint_name s epoch m1 (some cnt) =
          some (verName s nbase (some cnt), m1) := by
        unfold format_checkpoint_name
        rw [Hst]
      rw [hfmt] at h
      simp only at h
      obtain ⟨hmf, hfp, hdisj⟩ := ih (cnt + 1) (verName s nbase (some cnt)) p mf h
      refine ⟨hmf, hfp, Or.inr ⟨hfs, ?_⟩⟩
      rcases hdisj with ⟨hpe, hne⟩ | ⟨hce, n, hn, hpe, hne, hall⟩
      · refine ⟨cnt, le_refl cnt, hpe, hpe ▸ hne, ?_⟩
        intro i h1 h2
        omega
      · refine ⟨n, by omega, hpe, hne, ?_⟩
        intro i h1 h2
        by_cases hi : i = cnt
        · rw [hi]
          exact hce
        · exact hall i (by omega) h2
    · rw [if_neg hfs] at h
      simp only [Option.some.injEq, Prod.mk.injEq] at h
      refine ⟨h.2.symm, ?_, Or.inl ⟨h.1.symm, ?_⟩⟩
      · rw [← h.1]
        exact Bool.not_eq_true _ ▸ hfs
      · exact Bool.not_eq_true _ ▸ hfs

/-- C4: the collision-probing loop first tries the candidate path with no
version suffix; if that exists on storage it tries version suffixes 0, 1,
2, … in strictly increasing order and returns the first candidate that
does not exist; the returned path never exists on storage. -/
theorem interpolated_filepath_first_free (s : MCState) (epoch : Int)
    (m : Metrics) (fs : String → Bool) (fuel : Nat) (p : String)
    (mf : Metrics)
    (h : _get_metric_interpolated_filepath_name s epoch m fs fuel = some (p, mf)) :
    fs p = false ∧
    ∃ nbase m1,
      _format_checkpoint_name s.filename epoch m s.pfx = some (nbase, m1) ∧
      mf = m1 ∧
      ((p = verName s nbase none ∧ fs (verName s nbase none) = false) ∨
       (fs (verName s nbase none) = true ∧
        ∃ n, p = verName s nbase (some n) ∧
          fs (verName s nbase (some n)) = false ∧
          ∀ i, i < n → fs (verName s nbase (some i)) = true)) := by
  unfold _get_metric_interpolated_filepath_name at h
  cases hf : format_checkpoint_name s epoch m none with
  | none => rw [hf] at h; simp at h
  | some nm =>
    rw [hf] at h
    simp only at h
    unfold format_checkpoint_name at hf
    cases hfc : _format_checkpoint_name s.filename epoch m s.pfx with
    | none => rw [hfc] at hf; simp at hf
    | some nb =>
      obtain ⟨nb1, nb2⟩ := nb
      rw [hfc] at hf
      simp only [Option.some.injEq] at hf
      have Hst : _format_checkpoint_name s.filename epoch nb2 s.pfx =
          some (nb1, nb2) := format_name_stable _ _ _ _ _ _ hfc
      have hfp : nm.1 = verName s nb1 none ∧ nm.2 = nb2 := by
        rw [← hf]
        exact ⟨rfl, rfl⟩
      obtain ⟨hmf, hfsp, hdisj⟩ :=
        interpAux_first_free s epoch fs nb1 nb2 Hst fuel 0 nm.1 p mf
          (by rw [← hfp.2]; exact h)
      refine ⟨hfsp, nb1, nb2, rfl, hmf, ?_⟩
      rcases hdisj with ⟨hpe, hne⟩ | ⟨hce, n, _, hpe, hne, hall⟩
      · exact Or.inl ⟨hpe.trans hfp.1, hfp.1 ▸ hne⟩
      · exact Or.inr ⟨hfp.1 ▸ hce, n, hpe, hne, fun i hi => hall i (Nat.zero_le i) hi⟩

/-! ### Frame lemmas: what each engine operation leaves untouched -/

theorem sameCfg_refl (s : MCState) : SameCfg s s :=
  ⟨rfl, rfl, rfl, rfl, rfl, rfl, rfl, rfl⟩

theorem sameCfg_trans {a b c : MCState} (h1 : SameCfg a b) (h2 : SameCfg b c) :
    SameCfg a c := by
  obtain ⟨a1, a2, a3, a4, a5, a6, a7, a8⟩ := h1
  obtain ⟨b1, b2, b3, b4, b5, b6, b7, b8⟩ := h2
  exact ⟨b1.trans a1, b2.trans a2, b3.trans a3, b4.trans a4, b5.trans a5,
    b6.trans a6, b7.trans a7, b8.trans a8⟩

theorem add_backward_frame (s : MCState) (cb : Metrics) :
    SameCfg s (_add_backward_monitor_support s cb) ∧
    (_add_backward_monitor_support s cb).epoch_last_check = s.epoch_last_check ∧
    (_add_backward_monitor_support s cb).best_k_models = s.best_k_models ∧
    (∀ m, s.monitor = some m →
      (_add_backward_monitor_support s cb).monitor = some m) ∧
    ((_add_backward_monitor_support s cb).monitor = s.monitor ∨
      (s.monitor = none ∧
        ((_add_backward_monitor_support s cb).monitor = some "val_loss" ∨
         (_add_backward_monitor_support s cb).monitor = some "checkpoint_on"))) := by
  unfold _add_backward_monitor_support
  cases hsm : s.monitor with
  | some m => simp [hsm, SameCfg]
  | none =>
    by_cases hvl : containsKey cb "val_loss" = true
    · simp [hsm, hvl, SameCfg]
    · by_cases hco : containsKey cb "checkpoint_on" = true
      · simp [hsm, hvl, hco, SameCfg]
      · simp [hsm, hvl, hco, SameCfg]

theorem save_last_frame (s : MCState) (epoch : Int) (metrics : Metrics)
    (filepath : String) (sfs : Bool) :
    SameCfg s (_save_last_checkpoint s epoch metrics filepath sfs).1 ∧
    (_save_last_checkpoint s epoch metrics filepath sfs).1.monitor = s.monitor ∧
    (_save_last_checkpoint s epoch metrics filepath sfs).1.epoch_last_check =
      s.epoch_last_check ∧
    (_save_last_checkpoint s epoch metrics filepath sfs).1.best_k_models =
      s.best_k_models := by
  unfold _save_last_checkpoint _save_model
  cases hfmt : _format_checkpoint_name (some "last") epoch metrics s.pfx with
  | none =>
    cases hsl : s.save_last <;> cases hsfs : sfs <;> cases hmon : s.monitor <;>
      simp_all [SameCfg]
  | some nm =>
    cases hsl : s.save_last <;> cases hsfs : sfs <;> cases hmon : s.monitor <;>
      simp_all [SameCfg]

theorem do_check_save_frame (s : MCState) (filepath : String) (current : ℚ)
    (sfs : Bool) :
    SameCfg s (_do_check_save s filepath current sfs).1 ∧
    (_do_check_save s filepath current sfs).1.monitor = s.monitor ∧
    (_do_check_save s filepath current sfs).1.epoch_last_check =
      s.epoch_last_check ∧
    (_do_check_save s filepath current sfs).1.last_model_path =
      s.last_model_path := by
  unfold _do_check_save _save_model
  repeat' split
  all_goals try simp_all [SameCfg]
  all_goals repeat' split
  all_goals simp_all [SameCfg]

theorem save_all_state_id (s : MCState) (epoch : Int) (filepath : String)
    (rank : Int) (sfs : Bool) :
    (_save_all_checkpoints s epoch filepath rank sfs).1 = s := by
  unfold _save_all_checkpoints _save_model
  repeat' split
  all_goals rfl

theorem save_top_k_frame (metrics : Metrics) (s : MCState) (epoch : Int)
    (filepath : String) (sfs : Bool) :
    SameCfg s (_save_top_k_checkpoints metrics s epoch filepath sfs).1 ∧
    (_save_top_k_checkpoints metrics s epoch filepath sfs).1.monitor =
      s.monitor ∧
    (_save_top_k_checkpoints metrics s epoch filepath sfs).1.epoch_last_check =
      s.epoch_last_check ∧
    (_save_top_k_checkpoints metrics s epoch filepath sfs).1.last_model_path =
      s.last_model_path := by
  unfold _save_top_k_checkpoints
  cases hmon : s.monitor with
  | none => exact ⟨sameCfg_refl s, hmon, rfl, rfl⟩
  | some mo =>
    dsimp only
    cases hget : dictGet metrics mo with
    | none => exact ⟨sameCfg_refl s, hmon, rfl, rfl⟩
    | some v =>
      dsimp only
      cases hchk : check_monitor_top_k s (toScore v) with
      | none => exact ⟨sameCfg_refl s, hmon, rfl, rfl⟩
      | some b =>
        cases b with
        | true =>
          obtain ⟨hc, hm, he, hl⟩ := do_check_save_frame s filepath (toScore v) sfs
          exact ⟨hc, hm.trans hmon, he, hl⟩
        | false => exact ⟨sameCfg_refl s, hmon, rfl, rfl⟩

theorem do_check_save_bound (s : MCState) (filepath : String) (current : ℚ)
    (sfs : Bool) (k : Int) (hk : 1 ≤ k) (hsk : s.save_top_k = k)
    (hlen : (s.best_k_models.length : Int) ≤ k) :
    (((_do_check_save s filepath current sfs).1.best_k_models.length : Int) ≤ k) := by
  unfold _do_check_save _save_model
  by_cases hcap : ((s.best_k_models.length : Int) = s.save_top_k ∧ s.save_top_k > 0)
  · rw [if_pos hcap]
    dsimp only
    cases hget : dictGet s.best_k_models s.kth_best_model_path with
    | none => exact hlen
    | some w =>
      dsimp only
      have hcont : containsKey s.best_k_models s.kth_best_model_path = true := by
        rw [containsKey_eq_isSome_dictGet, hget]
        rfl
      have hpop := length_dictPop_lt s.best_k_models s.kth_best_model_path hcont
      have hins := length_dictInsert_le
        (dictPop s.best_k_models s.kth_best_model_path) filepath current
      have hkk := hcap.1
      repeat' split
      all_goals dsimp only
      all_goals omega
  · rw [if_neg hcap]
    dsimp only
    have hlt : (s.best_k_models.length : Int) < k := by
      rcases not_and_or.mp hcap with h | h
      · rw [hsk] at h
        omega
      · rw [hsk] at h
        omega
    have hins := length_dictInsert_le s.best_k_models filepath current
    repeat' split
    all_goals dsimp only
    all_goals omega

theorem save_top_k_bound (metrics : Metrics) (s : MCState) (epoch : Int)
    (filepath : String) (sfs : Bool) (k : Int) (hk : 1 ≤ k)
    (hsk : s.save_top_k = k) (hlen : (s.best_k_models.length : Int) ≤ k) :
    (((_save_top_k_checkpoints metrics s epoch filepath sfs).1.best_k_models.length : Int) ≤ k) := by
  unfold _save_top_k_checkpoints
  cases hmon : s.monitor with
  | none => exact hlen
  | some mo =>
    dsimp only
    cases hget : dictGet metrics mo with
    | none => exact hlen
    | some v =>
      dsimp only
      cases hchk : check_monitor_top_k s (toScore v) with
      | none => exact hlen
      | some b =>
        cases b with
        | true => exact do_check_save_bound s filepath (toScore v) sfs k hk hsk hlen
        | false => exact hlen

theorem save_checkpoint_frame (s : MCState) (t : TrainerInput) (fuel : Nat) :
    SameCfg s (save_checkpoint s t fuel).1 ∧
    (∀ m, s.monitor = some m → (save_checkpoint s t fuel).1.monitor = some m) ∧
    ((save_checkpoint s t fuel).1.monitor = s.monitor ∨
      (s.monitor = none ∧
        ((save_checkpoint s t fuel).1.monitor = some "val_loss" ∨
         (save_checkpoint s t fuel).1.monitor = some "checkpoint_on"))) := by
  unfold save_checkpoint
  by_cases h1 : t.global_rank ≠ 0
  · rw [if_pos h1]
    exact ⟨sameCfg_refl s, fun m hm => hm, Or.inl rfl⟩
  rw [if_neg h1]
  by_cases h2 : s.save_top_k = 0
  · rw [if_pos h2]
    exact ⟨sameCfg_refl s, fun m hm => hm, Or.inl rfl⟩
  rw [if_neg h2]
  by_cases h3 : t.running_sanity_check = true
  · rw [if_pos h3]
    exact ⟨sameCfg_refl s, fun m hm => hm, Or.inl rfl⟩
  rw [if_neg h3]
  by_cases h4 : _should_skip_epoch s t.current_epoch = true
  · rw [if_pos h4]
    exact ⟨sameCfg_refl s, fun m hm => hm, Or.inl rfl⟩
  rw [if_neg h4]
  dsimp only
  obtain ⟨hcX, heX, hbX, hm1X, hm2X⟩ := add_backward_frame s t.callback_metrics
  generalize hX : _add_backward_monitor_support s t.callback_metrics = X at *
  cases hv : _validate_monitor_key X t.callback_metrics with
  | some e => exact ⟨hcX, hm1X, hm2X⟩
  | none =>
    dsimp only
    have hcS2 : SameCfg s { X with epoch_last_check := some t.current_epoch } := hcX
    cases hi : _get_metric_interpolated_filepath_name
        { X with epoch_last_check := some t.current_epoch } t.current_epoch
        (_monitor_candidates t) t.fs_exists fuel with
    | none => exact ⟨hcS2, hm1X, hm2X⟩
    | some fpm =>
      dsimp only
      obtain ⟨hcL, hmL, heL, hbL⟩ := save_last_frame
        { X with epoch_last_check := some t.current_epoch } t.current_epoch
        fpm.2 fpm.1 t.save_function_set
      generalize hslr : _save_last_checkpoint
        { X with epoch_last_check := some t.current_epoch } t.current_epoch
        fpm.2 fpm.1 t.save_function_set = slr at *
      obtain ⟨s3, cand2, eff1, err1⟩ := slr
      have hm3X : s3.monitor = X.monitor := hmL
      have hcs3 : SameCfg s s3 := sameCfg_trans hcS2 hcL
      have hmon3 : ∀ m, s.monitor = some m → s3.monitor = some m :=
        fun m hm => hm3X.trans (hm1X m hm)
      have hdisj3 : s3.monitor = s.monitor ∨
          (s.monitor = none ∧
            (s3.monitor = some "val_loss" ∨ s3.monitor = some "checkpoint_on")) := by
        rcases hm2X with h | ⟨hn, h⟩
        · exact Or.inl (hm3X.trans h)
        · exact Or.inr ⟨hn, h.imp (fun hh => hm3X.trans hh) (fun hh => hm3X.trans hh)⟩
      cases err1 with
      | some e => exact ⟨hcs3, hmon3, hdisj3⟩
      | none =>
        dsimp only
        cases hm3 : s3.monitor with
        | none => exact ⟨hcs3, hmon3, hdisj3⟩
        | some mo =>
          dsimp only
          by_cases hk : s3.save_top_k = -1
          · rw [if_pos hk]
            dsimp only
            rw [save_all_state_id]
            exact ⟨hcs3, hmon3, hdisj3⟩
          · rw [if_neg hk]
            dsimp only
            obtain ⟨hcT, hmT, heT, hlT⟩ := save_top_k_frame cand2 s3
              t.current_epoch fpm.1 t.save_function_set
            refine ⟨sameCfg_trans hcs3 hcT, ?_, ?_⟩
            · intro m hm
              exact hmT.trans (hmon3 m hm)
            · rcases hdisj3 with h | ⟨hn, h⟩
              · exact Or.inl (hmT.trans h)
              · exact Or.inr ⟨hn, h.imp (fun hh => hmT.trans hh) (fun hh => hmT.trans hh)⟩

theorem save_checkpoint_bound (s : MCState) (t : TrainerInput) (fuel : Nat)
    (k : Int) (hk : 1 ≤ k) (hsk : s.save_top_k = k)
    (hlen : (s.best_k_models.length : Int) ≤ k) :
    (save_checkpoint s t fuel).1.save_top_k = k ∧
    (((save_checkpoint s t fuel).1.best_k_models.length : Int) ≤ k) := by
  have hframe := save_checkpoint_frame s t fuel
  have hskout : (save_checkpoint s t fuel).1.save_top_k = k :=
    hframe.1.2.1.trans hsk
  refine ⟨hskout, ?_⟩
  unfold save_checkpoint
  by_cases h1 : t.global_rank ≠ 0
  · rw [if_pos h1]
    exact hlen
  rw [if_neg h1]
  by_cases h2 : s.save_top_k = 0
  · rw [if_pos h2]
    exact hlen
  rw [if_neg h2]
  by_cases h3 : t.running_sanity_check = true
  · rw [if_pos h3]
    exact hlen
  rw [if_neg h3]
  by_cases h4 : _should_skip_epoch s t.current_epoch = true
  · rw [if_pos h4]
    exact hlen
  rw [if_neg h4]
  dsimp only
  obtain ⟨hcX, heX, hbX, hm1X, hm2X⟩ := add_backward_frame s t.callback_metrics
  generalize hX : _add_backward_monitor_support s t.callback_metrics = X at *
  have hlenX : (X.best_k_models.length : Int) ≤ k := by rw [hbX]; exact hlen
  have hskX : X.save_top_k = k := hcX.2.1.trans hsk
  cases hv : _validate_monitor_key X t.callback_metrics with
  | some e => exact hlenX
  | none =>
    dsimp only
    cases hi : _get_metric_interpolated_filepath_name
        { X with epoch_last_check := some t.current_epoch } t.current_epoch
        (_monitor_candidates t) t.fs_exists fuel with
    | none => exact hlenX
    | some fpm =>
      dsimp only
      obtain ⟨hcL, hmL, heL, hbL⟩ := save_last_frame
        { X with epoch_last_check := some t.current_epoch } t.current_epoch
        fpm.2 fpm.1 t.save_function_set
      generalize hslr : _save_last_checkpoint
        { X with epoch_last_check := some t.current_epoch } t.current_epoch
        fpm.2 fpm.1 t.save_function_set = slr at *
      obtain ⟨s3, cand2, eff1, err1⟩ := slr
      have hlen3 : (s3.best_k_models.length : Int) ≤ k := by
        have hb3 : s3.best_k_models = X.best_k_models := hbL
        rw [hb3]
        exact hlenX
      have hsk3 : s3.save_top_k = k := hcL.2.1.trans hskX
      cases err1 with
      | some e => exact hlen3
      | none =>
        dsimp only
        cases hm3 : s3.monitor with
        | none => exact hlen3
        | some mo =>
          dsimp only
          by_cases hkm : s3.save_top_k = -1
          · rw [if_pos hkm]
            dsimp only
            rw [save_all_state_id]
            exact hlen3
          · rw [if_neg hkm]
            dsimp only
            exact save_top_k_bound cand2 s3 t.current_epoch fpm.1
              t.save_function_set k hk hsk3 hlen3

theorem save_checkpoint_epoch_update (s : MCState) (t : TrainerInput)
    (fuel : Nat) (h1 : t.global_rank = 0) (h2 : s.save_top_k ≠ 0)
    (h3 : t.running_sanity_check = false)
    (h4 : _should_skip_epoch s t.current_epoch = false)
    (hv : _validate_monitor_key (_add_backward_monitor_support s t.callback_metrics)
            t.callback_metrics = none) :
    (save_checkpoint s t fuel).1.epoch_last_check = some t.current_epoch := by
  unfold save_checkpoint
  rw [if_neg (fun hh => hh h1)]
  rw [if_neg h2]
  rw [if_neg (by rw [h3]; exact Bool.false_ne_true)]
  rw [if_neg (by rw [h4]; exact Bool.false_ne_true)]
  dsimp only
  generalize hX : _add_backward_monitor_support s t.callback_metrics = X at *
  rw [hv]
  dsimp only
  cases hi : _get_metric_interpolated_filepath_name
      { X with epoch_last_check := some t.current_epoch } t.current_epoch
      (_monitor_candidates t) t.fs_exists fuel with
  | none => rfl
  | some fpm =>
    dsimp only
    obtain ⟨hcL, hmL, heL, hbL⟩ := save_last_frame
      { X with epoch_last_check := some t.current_epoch } t.current_epoch
      fpm.2 fpm.1 t.save_function_set
    generalize hslr : _save_last_checkpoint
      { X with epoch_last_check := some t.current_epoch } t.current_epoch
      fpm.2 fpm.1 t.save_function_set = slr at *
    obtain ⟨s3, cand2, eff1, err1⟩ := slr
    have he3 : s3.epoch_last_check = some t.current_epoch := heL
    cases err1 with
    | some e => exact he3
    | none =>
      dsimp only
      cases hm3 : s3.monitor with
      | none => exact he3
      | some mo =>
        dsimp only
        by_cases hkm : s3.save_top_k = -1
        · rw [if_pos hkm]
          dsimp only
          rw [save_all_state_id]
          exact he3
        · rw [if_neg hkm]
          dsimp only
          obtain ⟨hcT, hmT, heT, hlT⟩ := save_top_k_frame cand2 s3
            t.current_epoch fpm.1 t.save_function_set
          exact heT.trans he3

theorem runCycles_frame (s : MCState) (fuel : Nat) (ts : List TrainerInput) :
    SameCfg s (runCycles s fuel ts) ∧
    (∀ m, s.monitor = some m → (runCycles s fuel ts).monitor = some m) ∧
    ((runCycles s fuel ts).monitor = s.monitor ∨
      (s.monitor = none ∧
        ((runCycles s fuel ts).monitor = some "val_loss" ∨
         (runCycles s fuel ts).monitor = some "checkpoint_on"))) := by
  induction ts generalizing s with
  | nil => exact ⟨sameCfg_refl s, fun m hm => hm, Or.inl rfl⟩
  | cons t rest ih =>
    obtain ⟨hc1, hm1, hd1⟩ := save_checkpoint_frame s t fuel
    obtain ⟨hc2, hm2, hd2⟩ := ih ((save_checkpoint s t fuel).1)
    have hrw : runCycles s fuel (t :: rest) =
        runCycles (save_checkpoint s t fuel).1 fuel rest := rfl
    rw [hrw]
    refine ⟨sameCfg_trans hc1 hc2, fun m hm => hm2 m (hm1 m hm), ?_⟩
    rcases hd2 with h2 | ⟨hn2, h2⟩
    · rcases hd1 with h1 | ⟨hn1, h1⟩
      · exact Or.inl (h2.trans h1)
      · exact Or.inr ⟨hn1, h1.imp (fun hh => h2.trans hh) (fun hh => h2.trans hh)⟩
    · rcases hd1 with h1 | ⟨hn1, h1⟩
      · exact Or.inr ⟨h1.symm.trans hn2, h2⟩
      · exact Or.inr ⟨hn1, h2⟩

/-- C1: for every `k ≥ 1` and every sequence of triggered cycles starting
from a freshly constructed callback with `save_top_k = k`, the best-k dict
(`best_k_models`) holds at most `k` entries after every cycle:
`_do_check_save` pops the tracked kth-best entry before inserting the new
one whenever the dict is at capacity. -/
theorem best_k_size_bounded (k : Int) (hk : 1 ≤ k) (fsi : InitFs)
    (filepath monitor : Option String) (verbose save_last_flag : Bool)
    (weights_only : Bool) (mode : String) (period : Int) (px : String)
    (fuel : Nat) (ts : List TrainerInput) :
    (((runCycles ((mkModelCheckpoint fsi filepath monitor verbose
        save_last_flag k weights_only mode period px).1.1) fuel
        ts).best_k_models.length : Int) ≤ k) := by
  suffices H : ∀ (ts2 : List TrainerInput) (s : MCState), s.save_top_k = k →
      (s.best_k_models.length : Int) ≤ k →
      (((runCycles s fuel ts2).best_k_models.length : Int) ≤ k) by
    apply H
    · rfl
    · show ((([] : List (String × ℚ)).length : Int) ≤ k)
      simp
      omega
  intro ts2
  induction ts2 with
  | nil =>
    intro s h1 h2
    exact h2
  | cons t rest ih =>
    intro s h1 h2
    have hrw : runCycles s fuel (t :: rest) =
        runCycles (save_checkpoint s t fuel).1 fuel rest := rfl
    rw [hrw]
    obtain ⟨hsk2, hlen2⟩ := save_checkpoint_bound s t fuel k hk h1 h2
    exact ih _ hsk2 hlen2

theorem best_k_size_bounded_witness :
    (((runCycles ((mkModelCheckpoint exInitFs none (some "loss") false
        false 1 false "auto" 1 "").1.1) 1
        [exLossInput, exLossInput]).best_k_models.length : Int) ≤ 1) :=
  best_k_size_bounded 1 (le_refl 1) exInitFs none (some "loss") false false
    false "auto" 1 "" 1 [exLossInput, exLossInput]

/-- C7 counterexample: the configuration is not immutable after
construction — a callback constructed with no monitor key has its monitor
mutated to "val_loss" by `_add_backward_monitor_support` during the first
`save_checkpoint` call whose callback metrics contain `val_loss`. -/
theorem config_mutates_monitor_cex :
    (exState none 1).monitor = none ∧
    (save_checkpoint (exState none 1) exBackfillInput 1).1.monitor =
      some "val_loss" := by
  constructor
  · rfl
  · decide

/-- C7 (amended): the mode, top-k count, period, save-last flag,
weights-only flag and prefix fixed at construction are never modified by
any sequence of `save_checkpoint` invocations; the monitor key is never
modified when it was configured at construction, but when it was left
unset the backward-compatibility support may set it once to "val_loss" or
"checkpoint_on" from the callback metrics. -/
theorem config_immutable_amended (s : MCState) (fuel : Nat)
    (ts : List TrainerInput) :
    (runCycles s fuel ts).mode = s.mode ∧
    (runCycles s fuel ts).save_top_k = s.save_top_k ∧
    (runCycles s fuel ts).period = s.period ∧
    (runCycles s fuel ts).save_last = s.save_last ∧
    (runCycles s fuel ts).save_weights_only = s.save_weights_only ∧
    (runCycles s fuel ts).pfx = s.pfx ∧
    (∀ m, s.monitor = some m → (runCycles s fuel ts).monitor = some m) ∧
    ((runCycles s fuel ts).monitor = s.monitor ∨
      (s.monitor = none ∧
        ((runCycles s fuel ts).monitor = some "val_loss" ∨
         (runCycles s fuel ts).monitor = some "checkpoint_on"))) := by
  obtain ⟨⟨f1, f2, f3, f4, f5, f6, f7, f8⟩, hm, hd⟩ := runCycles_frame s fuel ts
  exact ⟨f1, f2, f3, f4, f5, f6, hm, hd⟩

theorem config_immutable_amended_witness :
    (runCycles (exState (some "loss") 1) 1 [exLossInput]).save_top_k =
      (exState (some "loss") 1).save_top_k ∧
    (runCycles (exState (some "loss") 1) 1 [exLossInput]).monitor =
      some "loss" := by
  obtain ⟨h1, h2, h3, h4, h5, h6, h7, h8⟩ :=
    config_immutable_amended (exState (some "loss") 1) 1 [exLossInput]
  exact ⟨h2, h7 "loss" rfl⟩

/-- C2: `check_monitor_top_k` returns true whenever the best-k dict holds
fewer than `save_top_k` entries; otherwise it returns true exactly when
the current score is strictly better than the tracked kth-worst entry's
score under the active mode (min: current < kth; max: current > kth).  A
score equal to the kth-worst never passes the check, and on such a tie
`_save_top_k_checkpoints` leaves the state unchanged and emits no save or
delete. -/
theorem check_monitor_top_k_spec (s : MCState) (cur kth : ℚ)
    (hkth : dictGet s.best_k_models s.kth_best_model_path = some kth)
    (hmode : s.mode = "min" ∨ s.mode = "max")
    (metrics : Metrics) (mo : String) (v : MetricVal) (epoch : Int)
    (fp : String) (sfs : Bool) :
    (((s.best_k_models.length : Int) < s.save_top_k →
        check_monitor_top_k s cur = some true) ∧
     (¬((s.best_k_models.length : Int) < s.save_top_k) →
        check_monitor_top_k s cur =
          some (if s.mode = "min" then decide (cur < kth)
                else decide (cur > kth))) ∧
     (¬((s.best_k_models.length : Int) < s.save_top_k) → cur = kth →
        check_monitor_top_k s cur = some false) ∧
     (¬((s.best_k_models.length : Int) < s.save_top_k) →
        s.monitor = some mo → dictGet metrics mo = some v →
        toScore v = kth →
        _save_top_k_checkpoints metrics s epoch fp sfs =
          (s,
           if s.verbose = true then
             [Effect.info ("Epoch " ++ toString epoch ++
               ": monitor was not in top " ++ toString s.save_top_k)]
           else [], none))) := by
  refine ⟨?_, ?_, ?_, ?_⟩
  · intro hlt
    unfold check_monitor_top_k
    rw [if_pos hlt]
  · intro hge
    unfold check_monitor_top_k
    rw [if_neg hge]
    rcases hmode with hm | hm
    · simp [hm, hkth]
    · simp [hm, hkth]
  · intro hge htie
    subst htie
    unfold check_monitor_top_k
    rw [if_neg hge]
    rcases hmode with hm | hm
    · simp [hm, hkth]
    · simp [hm, hkth]
  · intro hge hmon hget htie
    unfold _save_top_k_checkpoints
    rw [hmon]
    dsimp only
    rw [hget]
    dsimp only
    have hchk : check_monitor_top_k s (toScore v) = some false := by
      unfold check_monitor_top_k
      rw [if_neg hge]
      rcases hmode with hm | hm
      · simp [hm, hkth, htie]
      · simp [hm, hkth, htie]
    rw [hchk]

theorem check_monitor_top_k_spec_witness :
    check_monitor_top_k exCapState 5 = some false ∧
    _save_top_k_checkpoints [("loss", MetricVal.num 5)] exCapState 0
      "p.ckpt" true = (exCapState, [], none) := by
  obtain ⟨h1, h2, h3, h4⟩ := check_monitor_top_k_spec exCapState 5 5
    (by decide) (Or.inl rfl) [("loss", MetricVal.num 5)] "loss"
    (MetricVal.num 5) 0 "p.ckpt" true
  refine ⟨h3 (by decide) rfl, ?_⟩
  exact h4 (by decide) rfl (by decide) (by decide)

/-- C5: with mode string "auto", the resolved direction is max exactly
when the monitor key contains "acc" or starts with "fmeasure" and min
otherwise (with the matching sentinel); in particular "val_acc" resolves
to max, "val_loss" to min and "fmeasure_score" to max; a mode string
outside min/max/auto warns and falls back to the "auto" resolution. -/
theorem monitor_mode_auto_spec :
    (∀ m : String, __init_monitor_mode (some m) "auto" =
      ((if strContainsSub m "acc" || strStartsWith m "fmeasure" then
          (EScore.negInf, "max")
        else (EScore.posInf, "min")), false)) ∧
    __init_monitor_mode (some "val_acc") "auto" =
      ((EScore.negInf, "max"), false) ∧
    __init_monitor_mode (some "val_loss") "auto" =
      ((EScore.posInf, "min"), false) ∧
    __init_monitor_mode (some "fmeasure_score") "auto" =
      ((EScore.negInf, "max"), false) ∧
    (∀ (monitor : Option String) (mode : String), mode ≠ "min" →
      mode ≠ "max" → mode ≠ "auto" →
      __init_monitor_mode monitor mode =
        ((__init_monitor_mode monitor "auto").1, true)) := by
  refine ⟨?_, by decide, by decide, by decide, ?_⟩
  · intro m
    rfl
  · intro monitor mode h1 h2 h3
    unfold __init_monitor_mode
    rw [if_neg h1, if_neg h2, if_neg h3]
    rfl

theorem monitor_mode_auto_spec_witness :
    __init_monitor_mode (some "val_acc") "auto" =
      ((EScore.negInf, "max"), false) ∧
    __init_monitor_mode (some "val_loss") "bogus" =
      ((__init_monitor_mode (some "val_loss") "auto").1, true) :=
  ⟨monitor_mode_auto_spec.2.1,
   monitor_mode_auto_spec.2.2.2.2 (some "val_loss") "bogus" (by decide)
     (by decide) (by decide)⟩

theorem format_last_name (epoch : Int) (metrics : Metrics) (px : String) :
    _format_checkpoint_name (some "last") epoch metrics px =
      some (joinTxts px "last", metrics) := rfl

/-- C6: in last mode (monitor unset or save-last set) with a configured
save delegate, the engine persists at the last path (the candidate path,
or the fixed "last"-named path when the save-last flag is set), then
requests deletion of the previously recorded last path exactly when it is
non-empty and differs from the new path, records the new path as
`last_model_path`, and, when no monitor key is configured, publishes it
as `best_model_path`; no error is raised. -/
theorem save_last_spec (s : MCState) (epoch : Int) (metrics : Metrics)
    (filepath : String)
    (hactive : s.monitor = none ∨ s.save_last = true) :
    (_save_last_checkpoint s epoch metrics filepath true).1.last_model_path =
      (if s.save_last = true then
        osPathJoin (s.dirpath.getD "") (joinTxts s.pfx "last" ++ ".ckpt")
      else filepath) ∧
    (_save_last_checkpoint s epoch metrics filepath true).2.2.1 =
      [Effect.save
          (if s.save_last = true then
            osPathJoin (s.dirpath.getD "") (joinTxts s.pfx "last" ++ ".ckpt")
          else filepath) s.save_weights_only] ++
        (if s.last_model_path ≠ "" ∧
            s.last_model_path ≠
              (if s.save_last = true then
                osPathJoin (s.dirpath.getD "") (joinTxts s.pfx "last" ++ ".ckpt")
              else filepath) then
          [Effect.del s.last_model_path]
        else []) ∧
    (_save_last_checkpoint s epoch metrics filepath true).2.2.2 = none ∧
    (s.monitor = none →
      (_save_last_checkpoint s epoch metrics filepath true).1.best_model_path =
        (if s.save_last = true then
          osPathJoin (s.dirpath.getD "") (joinTxts s.pfx "last" ++ ".ckpt")
        else filepath)) := by
  unfold _save_last_checkpoint _save_model
  rw [if_neg (not_not_intro hactive)]
  by_cases hsl : s.save_last = true
  · rw [if_pos hsl, format_last_name]
    dsimp only
    rw [if_pos hsl]
    cases hmon : s.monitor with
    | none => simp
    | some mo => simp [hmon]
  · rw [if_neg hsl]
    dsimp only
    rw [if_neg hsl]
    cases hmon : s.monitor with
    | none => simp
    | some mo => simp [hmon]

theorem save_last_spec_witness :
    (_save_last_checkpoint (exState none 1) 0 [] "p.ckpt" true).1.last_model_path =
      "p.ckpt" ∧
    (_save_last_checkpoint (exState none 1) 0 [] "p.ckpt" true).2.2.1 =
      [Effect.save "p.ckpt" false] ∧
    (_save_last_checkpoint (exState none 1) 0 [] "p.ckpt" true).2.2.2 = none ∧
    (_save_last_checkpoint (exState none 1) 0 [] "p.ckpt" true).1.best_model_path =
      "p.ckpt" := by
  obtain ⟨h1, h2, h3, h4⟩ := save_last_spec (exState none 1) 0 [] "p.ckpt"
    (Or.inl rfl)
  exact ⟨h1, h2, h3, h4 rfl⟩

theorem interpolated_filepath_first_free_witness :
    exFs "epoch=0-v1.ckpt" = false :=
  (interpolated_filepath_first_free (exState (some "loss") 1) 0 [] exFs 5
    "epoch=0-v1.ckpt" [("epoch", MetricVal.int 0)] (by decide)).1

/-- C3 counterexample: with monitor "val_loss" configured and a non-empty
callback-metrics snapshot lacking that key, `save_checkpoint` raises
`MisconfigurationException` from `_validate_monitor_key` and emits no
warning — the missing-metric condition is fatal on this path, not a
warn-and-skip. -/
theorem missing_monitor_raises_cex :
    exBadInput.callback_metrics ≠ [] ∧
    dictGet exBadInput.callback_metrics "val_loss" = none ∧
    (save_checkpoint (exState (some "val_loss") 1) exBadInput 1).2.2 =
      some (PyError.misconfiguration
        "ModelCheckpoint(monitor) not found in the returned metrics") ∧
    (save_checkpoint (exState (some "val_loss") 1) exBadInput 1).2.1 = [] := by
  refine ⟨by decide, by decide, by decide, by decide⟩

/-- C3 (amended): the warn-and-skip behaviour holds at the
`_save_top_k_checkpoints` level: when the monitored key is absent from
the metrics snapshot it receives, it emits the skip warning, performs no
save, leaves the state (in particular the best-k dict) unchanged and
raises no error.  (Reaching this point requires `_validate_monitor_key`
to have passed, which it does only when the callback metrics are empty or
contain the key; otherwise the cycle aborts with
`MisconfigurationException`.) -/
theorem missing_monitor_warns_skips (metrics : Metrics) (s : MCState)
    (epoch : Int) (fp : String) (sfs : Bool) (mo : String)
    (hmon : s.monitor = some mo) (habsent : dictGet metrics mo = none) :
    _save_top_k_checkpoints metrics s epoch fp sfs =
      (s,
       [Effect.warn
          (if mo = "checkpoint_on" then
            "No checkpoint_on found. Hint: Did you set it in EvalResult(checkpoint_on=tensor) or TrainResult(checkpoint_on=tensor)?"
          else
            "Can save best model only with " ++ mo ++ " available, skipping.")],
       none) := by
  unfold _save_top_k_checkpoints
  rw [hmon]
  dsimp only
  rw [habsent]
  dsimp only
  simp [hmon]

theorem missing_monitor_warns_skips_witness :
    _save_top_k_checkpoints [] (exState (some "loss") 1) 0 "p.ckpt" true =
      (exState (some "loss") 1,
       [Effect.warn "Can save best model only with loss available, skipping."],
       none) := by
  have h := missing_monitor_warns_skips [] (exState (some "loss") 1) 0
    "p.ckpt" true "loss" rfl rfl
  exact h

/-- C8 counterexample: `_format_checkpoint_name` does not leave the
metrics mapping it is passed unchanged — formatting the template
`"\x7bepoch\x7d"` injects an `epoch` entry into the caller's dict. -/
theorem format_mutates_metrics_cex :
    (_format_checkpoint_name (some "\x7bepoch\x7d") 3
        [("score", MetricVal.num 1)] "").map Prod.snd ≠
      some [("score", MetricVal.num 1)] ∧
    (_format_checkpoint_name (some "\x7bepoch\x7d") 3
        [("score", MetricVal.num 1)] "").map Prod.snd =
      some [("score", MetricVal.num 1), ("epoch", MetricVal.int 3)] := by
  refine ⟨by decide, by decide⟩

theorem dictGet_addDefault (m : Metrics) (nm k : String) :
    dictGet (addDefault m nm) k = dictGet m k ∨
      (dictGet m k = none ∧
        dictGet (addDefault m nm) k = some (MetricVal.int 0)) := by
  unfold addDefault
  by_cases hc : containsKey m nm
  · rw [if_pos hc]
    exact Or.inl rfl
  · rw [if_neg hc]
    rw [dictGet_dictInsert]
    by_cases hk : k = nm
    · subst hk
      have hnone : dictGet m k = none := by
        apply dictGet_none_of_not_containsKey
        revert hc
        cases containsKey m k <;> simp
      rw [if_pos rfl]
      exact Or.inr ⟨hnone, rfl⟩
    · rw [if_neg hk]
      exact Or.inl rfl

theorem dictGet_foldDefaults (gs : List String) (m : Metrics) (k : String) :
    dictGet (foldDefaults gs m) k = dictGet m k ∨
      (dictGet m k = none ∧
        dictGet (foldDefaults gs m) k = some (MetricVal.int 0)) := by
  induction gs generalizing m with
  | nil => exact Or.inl rfl
  | cons g rest ih =>
    have hrw : foldDefaults (g :: rest) m =
        foldDefaults rest (addDefault m (groupName g)) := rfl
    rw [hrw]
    rcases ih (addDefault m (groupName g)) with h | ⟨hn, hv⟩
    · rcases dictGet_addDefault m (groupName g) k with h2 | ⟨hn2, hv2⟩
      · exact Or.inl (h.trans h2)
      · rw [hv2] at h
        exact Or.inr ⟨hn2, h⟩
    · rcases dictGet_addDefault m (groupName g) k with h2 | ⟨hn2, hv2⟩
      · rw [h2] at hn
        exact Or.inr ⟨hn, hv⟩
      · exact Or.inr ⟨hn2, hv⟩

/-- C8 (amended): `_format_checkpoint_name` mutates the metrics mapping it
is given, but only in the documented way: it sets the "epoch" key to the
cycle index and defaults placeholder names that were absent to 0; every
pre-existing entry under any other key keeps its value.  (The per-cycle
flow passes the deep-copied merge built by `_monitor_candidates`, so the
trainer's own metric dicts are never handed to the formatter.) -/
theorem format_metrics_mutation_spec (filename : Option String)
    (epoch : Int) (m : Metrics) (px : String) (n : String) (m2 : Metrics)
    (h : _format_checkpoint_name filename epoch m px = some (n, m2)) :
    (∀ k v, k ≠ "epoch" → dictGet m k = some v → dictGet m2 k = some v) ∧
    (∀ k, dictGet m2 k = dictGet m k ∨
      (k = "epoch" ∧ dictGet m2 k = some (MetricVal.int epoch)) ∨
      (dictGet m k = none ∧ dictGet m2 k = some (MetricVal.int 0))) := by
  unfold _format_checkpoint_name at h
  by_cases hg : pyFindGroups (fmtTemplate filename) = []
  · simp only [hg, if_true, Option.some.injEq, Prod.mk.injEq] at h
    obtain ⟨-, hm2⟩ := h
    subst hm2
    exact ⟨fun k v _ hv => hv, fun k => Or.inl rfl⟩
  · simp only [hg, if_false] at h
    cases hpf : pyFormat
        (foldStr (pyFindGroups (fmtTemplate filename)) (fmtTemplate filename))
        (foldDefaults (pyFindGroups (fmtTemplate filename))
          (dictInsert m "epoch" (MetricVal.int epoch))) with
    | none => rw [hpf] at h; simp at h
    | some rendered =>
      rw [hpf] at h
      simp only [Option.some.injEq, Prod.mk.injEq] at h
      obtain ⟨-, hm2⟩ := h
      constructor
      · intro k v hke hv
        rw [← hm2]
        have h1 : dictGet (dictInsert m "epoch" (MetricVal.int epoch)) k =
            some v := by
          rw [dictGet_dictInsert, if_neg hke]
          exact hv
        rcases dictGet_foldDefaults (pyFindGroups (fmtTemplate filename))
            (dictInsert m "epoch" (MetricVal.int epoch)) k with h2 | ⟨hn2, _⟩
        · rw [h2]
          exact h1
        · rw [hn2] at h1
          exact Option.noConfusion h1
      · intro k
        rw [← hm2]
        by_cases hke : k = "epoch"
        · subst hke
          rcases dictGet_foldDefaults (pyFindGroups (fmtTemplate filename))
              (dictInsert m "epoch" (MetricVal.int epoch)) "epoch" with
            h2 | ⟨hn2, hv2⟩
          · refine Or.inr (Or.inl ⟨rfl, ?_⟩)
            rw [h2, dictGet_dictInsert, if_pos rfl]
          · rw [dictGet_dictInsert, if_pos rfl] at hn2
            exact Option.noConfusion hn2
        · rcases dictGet_foldDefaults (pyFindGroups (fmtTemplate filename))
              (dictInsert m "epoch" (MetricVal.int epoch)) k with
            h2 | ⟨hn2, hv2⟩
          · refine Or.inl ?_
            rw [h2, dictGet_dictInsert, if_neg hke]
          · rw [dictGet_dictInsert, if_neg hke] at hn2
            exact Or.inr (Or.inr ⟨hn2, hv2⟩)

theorem format_metrics_mutation_spec_witness :
    dictGet [("score", MetricVal.num 1), ("epoch", MetricVal.int 3)]
      "score" = some (MetricVal.num 1) := by
  obtain ⟨h1, h2⟩ := format_metrics_mutation_spec (some "\x7bepoch\x7d") 3
    [("score", MetricVal.num 1)] "" "epoch=3"
    [("score", MetricVal.num 1), ("epoch", MetricVal.int 3)] (by decide)
  exact h1 "score" (MetricVal.num 1) (by decide) (by decide)

/-- C9: the templating scenario — template
`"\x7bepoch\x7d-\x7bscore:.2f\x7d"` (the spec calls the injected
per-cycle index `cycle`; the code names the placeholder `epoch`), metrics
`score = 0.1234`, cycle index 3, prefix "run" and join character "-":
each placeholder is rewritten to `name=\x7bname...\x7d`, absent
placeholder names default to 0, the `.2f` spec renders 0.1234 as 0.12,
the non-empty prefix is joined with "-", and ".ckpt" is appended, giving
`"run-epoch=3-score=0.12.ckpt"`. -/
theorem template_scenario_spec :
    format_checkpoint_name exTmplState 3 [("score", MetricVal.num exScoreVal)]
        none =
      some ("run-epoch=3-score=0.12.ckpt",
        [("score", MetricVal.num exScoreVal), ("epoch", MetricVal.int 3)]) := by
  decide

/-- C10 counterexample: a cycle that passes the gate (coordinator, top-k
nonzero, not sanity-checking, period elapsed) can still end with
`epoch_last_check` unchanged — when the monitored key is missing from a
non-empty callback-metrics snapshot, `_validate_monitor_key` raises
before the bookkeeping line runs. -/
theorem epoch_last_check_not_updated_cex :
    exBadInput.global_rank = 0 ∧
    (exState (some "val_loss") 1).save_top_k ≠ 0 ∧
    exBadInput.running_sanity_check = false ∧
    _should_skip_epoch (exState (some "val_loss") 1)
      exBadInput.current_epoch = false ∧
    (save_checkpoint (exState (some "val_loss") 1) exBadInput 1).1.epoch_last_check =
      none := by
  refine ⟨by decide, by decide, by decide, by decide, by decide⟩

/-- C10 (amended): on every cycle that passes the gate and whose
monitor-key validation does not raise, `epoch_last_check` is set to the
current cycle index before any save decision — so it is updated even when
the cycle persists nothing (monitored metric absent from the candidates,
or score not in the top k) — and consequently any cycle index within the
period of the current one is skipped by the next gate check. -/
theorem epoch_last_check_updated (s : MCState) (t : TrainerInput)
    (fuel : Nat) (h1 : t.global_rank = 0) (h2 : s.save_top_k ≠ 0)
    (h3 : t.running_sanity_check = false)
    (h4 : _should_skip_epoch s t.current_epoch = false)
    (hv : _validate_monitor_key
            (_add_backward_monitor_support s t.callback_metrics)
            t.callback_metrics = none) :
    (save_checkpoint s t fuel).1.epoch_last_check = some t.current_epoch ∧
    ∀ e2, e2 - t.current_epoch < s.period →
      _should_skip_epoch (save_checkpoint s t fuel).1 e2 = true := by
  have hup := save_checkpoint_epoch_update s t fuel h1 h2 h3 h4 hv
  refine ⟨hup, ?_⟩
  intro e2 he2
  unfold _should_skip_epoch
  rw [hup]
  have hper : (save_checkpoint s t fuel).1.period = s.period :=
    (save_checkpoint_frame s t fuel).1.2.2.1
  rw [hper]
  exact decide_eq_true he2

theorem epoch_last_check_updated_witness :
    (save_checkpoint (exState (some "loss") 1) exInput 1).1.epoch_last_check =
      some 0 ∧
    _should_skip_epoch (save_checkpoint (exState (some "loss") 1) exInput 1).1
      0 = true := by
  obtain ⟨ha, hb⟩ := epoch_last_check_updated (exState (some "loss") 1)
    exInput 1 (by decide) (by decide) (by decide) (by decide) (by decide)
  exact ⟨ha, hb 0 (by decide)⟩
